import Mathlib

/-!
Verification of the rpc2socks service core (`src/svc/src`).

The C++ sources are shallowly embedded: byte buffers (`std::vector<uint8_t>`)
become `List Nat` with every element below 256, multi-byte header fields are
laid out explicitly in little-endian order (the program targets Windows on
x86/x64, where `host2net`/`net2host` from `protocol.h` are the identity and
the packed structs of `protocol.h` fix the byte offsets), and the stateful
worker / SOCKS-proxy / pipe-instance code becomes explicit state passing or a
step relation.  Fallible operations return `Option`.  Functions keep the
names of the C++ functions they embed wherever Lean allows it.
-/

/-! ### Little-endian byte layout helpers -/

/-- Little-endian serialisation of `n` on `k` bytes, as laid out by the
packed structs of `protocol.h` on the little-endian target. -/
def leEnc : Nat → Nat → List Nat
  | 0, _ => []
  | k + 1, n => n % 256 :: leEnc k (n / 256)

/-- Little-endian deserialisation of a byte list (reads the whole list). -/
def leDec : List Nat → Nat
  | [] => 0
  | b :: r => b % 256 + 256 * leDec r

/-- Returns `p` with the `bs.length` bytes at offset `off` replaced by `bs`
(models an in-place write into a `std::vector` buffer). -/
def setBytes (p : List Nat) (off : Nat) (bs : List Nat) : List Nat :=
  p.take off ++ bs ++ p.drop (off + bs.length)

/-! ### CRC-32 -/

/-- One bit step of CRC-32: shift right, conditionally xor the reflected
IEEE-802.3 polynomial `0xEDB88320`. -/
def crc32Round (c : Nat) : Nat :=
  if c % 2 = 1 then Nat.xor (c / 2) 0xEDB88320 else c / 2

/-- Fold one input byte into a CRC-32 context (8 polynomial rounds). -/
def crc32Byte (c b : Nat) : Nat :=
  crc32Round (crc32Round (crc32Round (crc32Round
    (crc32Round (crc32Round (crc32Round (crc32Round (Nat.xor c (b % 256)))))))))

/-- Modelled from the spec: the vendored `cix::crc32`
implementation (`cix` ships only `crc32.h` under `src/`); §4.1 of the spec
fixes it as "Standard CRC-32 (IEEE-802.3 polynomial)", i.e. the zlib CRC:
context starts at `0xFFFFFFFF`, bytes are folded LSB-first with the
reflected polynomial, and finalisation is a complement. -/
def cix_crc32_update (c : Nat) (data : List Nat) : Nat :=
  data.foldl crc32Byte c

/-- Modelled from the spec: `cix::crc32::create`/`finalize` composed with
`update` (standard CRC-32). -/
def cix_crc32 (data : List Nat) : Nat :=
  Nat.xor (cix_crc32_update 0xFFFFFFFF data) 0xFFFFFFFF

/-! ### Protocol constants (`protocol.h`) -/

def magicBytes : List Nat := [0xe4, 0x85, 0xb4, 0xb2]

def headerSize : Nat := 17

def max_packet_size : Nat := 16 * 1024 * 1024

def op_channel_setup : Nat := 1

def op_channel_setup_ack : Nat := 2

def op_status : Nat := 5

def op_ping : Nat := 10

def op_socks : Nat := 150

def op_socks_close : Nat := 151

def op_socks_disconnected : Nat := 152

def op_uninstall_self : Nat := 240

def status_ok : Nat := 0

def status_unsupported : Nat := 1

def chansetup_read : Nat := 1

def chansetup_write : Nat := 2

def chansetup_duplex : Nat := 3

def chanconfig_read : Nat := 1

def chanconfig_write : Nat := 2

/-- The `proto::error_t` error enumeration. -/
inductive ProtoError
  | ok
  | error_garbage
  | error_incomplete
  | error_malformed
  | error_toobig
  | error_crc
deriving DecidableEq

/-! Header field accessors for a byte buffer whose first byte is the start
of the packed `proto::header_t` (offsets 0 magic, 4 len, 8 crc32, 12 uid,
16 opcode; little-endian fields, `sizeof(header_t) == 17`). -/

def hdrLen (p : List Nat) : Nat := leDec ((p.drop 4).take 4)

def hdrCrc (p : List Nat) : Nat := leDec ((p.drop 8).take 4)

def hdrUid (p : List Nat) : Nat := leDec ((p.drop 12).take 4)

def hdrOpcode (p : List Nat) : Nat := leDec ((p.drop 16).take 1)

/-- Model of `proto::crc32` (protocol.cpp): CRC over the whole packet with the four
CRC bytes replaced by zero; the packet length is read from the header `len`
field.  (For `len < 12` the C++ `len - offset` underflows `size_t` and the
code overreads its buffer — undefined behaviour; all packets exercised
below have `len ≥ 17`, where the Nat truncation used here agrees with the
C++.) -/
def proto_crc32 (p : List Nat) : Nat :=
  cix_crc32 (p.take 8 ++ [0, 0, 0, 0] ++ (p.drop 12).take (hdrLen p - 12))

/-- The per-opcode packet-length checks of the `switch` in
`proto::detail::extract_packet`: header is 17 bytes and payload sizes come
from the packed payload structs of protocol.h (`channel_setup` 12,
`channel_setup_ack` 8, `status` 1, `ping`/`uninstall_self` 0,
`socks` ≥ 8 + 1, `socks_close`/`socks_disconnected` 8).  Unknown opcodes
fall into the `default: assert(0); break;` branch, which accepts. -/
def packetSizeOk (op declared : Nat) : Bool :=
  if op = op_channel_setup then declared == 17 + 12
  else if op = op_channel_setup_ack then declared == 17 + 8
  else if op = op_status then declared == 17 + 1
  else if op = op_ping ∨ op = op_uninstall_self then declared == 17
  else if op = op_socks then decide (17 + 8 + 1 ≤ declared)
  else if op = op_socks_close ∨ op = op_socks_disconnected then declared == 17 + 8
  else true

/-- Model of `proto::detail::extract_packet`: `rem` starts at the magic and has at
least `headerSize` bytes; returns (error, out-packet, out-uid).  The
in-place `net2host` payload conversions of the C++ are byte-level no-ops on
the little-endian target, so the copied `out_packet` is the unchanged byte
prefix; on `error_malformed` the already-copied bytes stay in `out_packet`
exactly as in the C++ (the caller cleared it on entry and the error path
does not clear it again). -/
def extract_packet (rem : List Nat) : ProtoError × List Nat × Nat :=
  let declared := hdrLen rem
  let uid := hdrUid rem
  if declared > max_packet_size then (.error_toobig, [], uid)
  else if declared > rem.length then (.error_incomplete, [], uid)
  else if proto_crc32 rem ≠ hdrCrc rem then (.error_crc, [], uid)
  else
    let pkt := rem.take declared
    if packetSizeOk (hdrOpcode pkt) declared then (.ok, pkt, uid)
    else (.error_malformed, pkt, uid)

/-- The `std::search` for the magic word in `proto::extract_next_packet`:
index of the first occurrence of the 4-byte magic, `none` when absent
(a window shorter than the needle cannot match, as with `std::search`). -/
def findMagic : List Nat → Option Nat
  | b0 :: b1 :: b2 :: b3 :: r =>
      if b0 = 0xe4 ∧ b1 = 0x85 ∧ b2 = 0xb4 ∧ b3 = 0xb2 then some 0
      else (findMagic (b1 :: b2 :: b3 :: r)).map (· + 1)
  | _ => none

/-- Result of `proto::extract_next_packet`: the returned error, the stream
buffer after its in-place erasures, the `out_packet` argument and the
`*out_uid` argument (0-initialised on entry). -/
structure ExtractResult where
  err : ProtoError
  stream : List Nat
  packet : List Nat
  uid : Nat
deriving DecidableEq

/-- Model of `proto::extract_next_packet` (protocol.cpp, lines 260-342). -/
def extract_next_packet (stream : List Nat) : ExtractResult :=
  if stream = [] then ⟨.error_incomplete, stream, [], 0⟩
  else
    match findMagic stream with
    | none => ⟨.error_garbage, [], [], 0⟩
    | some i =>
        let rem := stream.drop i
        if rem.length < headerSize then ⟨.error_incomplete, rem, [], 0⟩
        else
          match extract_packet rem with
          | (.ok, pkt, uid) => ⟨.ok, rem.drop pkt.length, pkt, uid⟩
          | (.error_garbage, pkt, uid) => ⟨.error_garbage, [], pkt, uid⟩
          | (.error_incomplete, pkt, uid) => ⟨.error_incomplete, rem, pkt, uid⟩
          | (.error_malformed, pkt, uid) =>
              ⟨.error_malformed, rem.drop (hdrLen rem), pkt, uid⟩
          | (.error_toobig, pkt, uid) => ⟨.error_toobig, rem.drop 4, pkt, uid⟩
          | (.error_crc, pkt, uid) => ⟨.error_crc, rem.drop (hdrLen rem), pkt, uid⟩

/-- Model of `proto::generate_uid` without its retry loop: the candidate built from
one tick-count sample and one PRNG draw (the function keeps drawing until
the candidate is non-zero). -/
def generate_uid_from (ticks shuffle : Nat) : Nat :=
  Nat.lor (Nat.land ticks 0x0000f0ff) (Nat.land shuffle 0xffff0f00)

/-- Model of `proto::generate_uid`: first non-zero candidate over a list of
(tick-count, PRNG draw) samples standing for the external inputs of the
unbounded retry loop. -/
def generate_uid (samples : List (Nat × Nat)) : Option Nat :=
  (samples.map fun s => generate_uid_from s.1 s.2).find? (fun u => !(u == 0))

/-- Model of `proto::detail::make_packet`: 17-byte header with the magic, the total
length, a zeroed CRC field, the unique id and the opcode; the payload bytes
of the zero-initialised buffer are appended by each `make_*` wrapper.
`gen` stands for the value the call to `proto::generate_uid()` inside
`make_packet` would return (taken only when the caller passes the
`0xFFFFFFFF` sentinel). -/
def make_packet (gen uid opcode payloadSize : Nat) : List Nat :=
  magicBytes ++ leEnc 4 (17 + payloadSize) ++ leEnc 4 0 ++
    leEnc 4 (if uid ≠ 4294967295 then uid else gen) ++ [opcode]

/-- Model of `proto::detail::consolidate_packet`: write the final length into the
header, then the CRC computed over the packet with the CRC field zeroed. -/
def consolidate_packet (p : List Nat) : List Nat :=
  let p1 := setBytes p 4 (leEnc 4 p.length)
  setBytes p1 8 (leEnc 4 (proto_crc32 p1))

/-- Common shape of every `make_*`: `make_packet` followed by the payload
bytes, then `consolidate_packet`. -/
def encodeRaw (gen uid opcode : Nat) (payload : List Nat) : List Nat :=
  consolidate_packet (make_packet gen uid opcode payload.length ++ payload)

/-- Model of `proto::make_channel_setup`: `g` is the `generate_uid()` draw of the
wrapper, `g2` the (sentinel-only) draw inside `make_packet`. -/
def make_channel_setup (g g2 clientId flags : Nat) : List Nat :=
  encodeRaw g2 g op_channel_setup (leEnc 8 clientId ++ leEnc 4 flags)

/-- Model of `proto::make_channel_setup_ack` (uid supplied by the caller). -/
def make_channel_setup_ack (g2 uid clientId : Nat) : List Nat :=
  encodeRaw g2 uid op_channel_setup_ack (leEnc 8 clientId)

/-- Model of `proto::make_status` (uid supplied by the caller; the status byte is a
`uint8_t`). -/
def make_status (g2 uid status : Nat) : List Nat :=
  encodeRaw g2 uid op_status [status % 256]

/-- Model of `proto::make_ping`. -/
def make_ping (g g2 : Nat) : List Nat :=
  encodeRaw g2 g op_ping []

/-- Model of `proto::make_socks` (throws on `socks_id == 0` or an empty SOCKS
packet; admissibility carries those preconditions). -/
def make_socks (g g2 socksId : Nat) (socksPacket : List Nat) : List Nat :=
  encodeRaw g2 g op_socks (leEnc 8 socksId ++ socksPacket)

/-- Model of `proto::make_socks_close`. -/
def make_socks_close (g g2 socksId : Nat) : List Nat :=
  encodeRaw g2 g op_socks_close (leEnc 8 socksId)

/-- Model of `proto::make_socks_disconnected`. -/
def make_socks_disconnected (g g2 socksId : Nat) : List Nat :=
  encodeRaw g2 g op_socks_disconnected (leEnc 8 socksId)

/-- Model of `proto::make_uninstall_self`. -/
def make_uninstall_self (g g2 : Nat) : List Nat :=
  encodeRaw g2 g op_uninstall_self []

/-! ### Opcode payloads

`PPayload` enumerates the admissible payloads of the eight opcodes of
`proto::opcode_t`; `payloadBytes` is the byte layout each `make_*` writes
after the header, and the `pld*` readers are the
`reinterpret_cast<payload_..._t*>(packet.data() + sizeof(header_t))` field
accesses used by the worker. -/

inductive PPayload
  | channelSetup (clientId flags : Nat)
  | channelSetupAck (clientId : Nat)
  | status (s : Nat)
  | ping
  | socks (socksId : Nat) (data : List Nat)
  | socksClose (socksId : Nat)
  | socksDisconnected (socksId : Nat)
  | uninstallSelf
deriving DecidableEq

def opcodeOf : PPayload → Nat
  | .channelSetup _ _ => op_channel_setup
  | .channelSetupAck _ => op_channel_setup_ack
  | .status _ => op_status
  | .ping => op_ping
  | .socks _ _ => op_socks
  | .socksClose _ => op_socks_close
  | .socksDisconnected _ => op_socks_disconnected
  | .uninstallSelf => op_uninstall_self

def payloadBytes : PPayload → List Nat
  | .channelSetup cid fl => leEnc 8 cid ++ leEnc 4 fl
  | .channelSetupAck cid => leEnc 8 cid
  | .status s => [s % 256]
  | .ping => []
  | .socks sid d => leEnc 8 sid ++ d
  | .socksClose sid => leEnc 8 sid
  | .socksDisconnected sid => leEnc 8 sid
  | .uninstallSelf => []

/-- Field-value admissibility: the C++ field types (`uint64_t`, `uint32_t`,
`uint8_t` and byte vectors) and the explicit preconditions of `make_socks`
(non-zero id, non-empty SOCKS packet, total length within
`max_packet_size`, checked by the `CIX_THROW_*` guards of `make_packet` and
`make_socks`). -/
def PAdmissible : PPayload → Prop
  | .channelSetup cid fl => cid < 2 ^ 64 ∧ fl < 2 ^ 32
  | .channelSetupAck cid => cid < 2 ^ 64
  | .status s => s < 256
  | .ping => True
  | .socks sid d =>
      sid < 2 ^ 64 ∧ sid ≠ 0 ∧ d ≠ [] ∧
        17 + 8 + d.length ≤ max_packet_size ∧ ∀ b ∈ d, b < 256
  | .socksClose sid => sid < 2 ^ 64 ∧ sid ≠ 0
  | .socksDisconnected sid => sid < 2 ^ 64 ∧ sid ≠ 0
  | .uninstallSelf => True

/-- Model of `proto::make_*` dispatch over `PPayload`: `g` is the wrapper-level
`generate_uid()` draw (for the encoders that draw their own id), `g2` is
the sentinel-only draw inside `make_packet`, and `uid` is the caller-chosen
echo id of `make_channel_setup_ack` / `make_status`. -/
def encode_packet (g g2 uid : Nat) : PPayload → List Nat
  | .channelSetup cid fl => make_channel_setup g g2 cid fl
  | .channelSetupAck cid => make_channel_setup_ack g2 uid cid
  | .status s => make_status g2 uid s
  | .ping => make_ping g g2
  | .socks sid d => make_socks g g2 sid d
  | .socksClose sid => make_socks_close g g2 sid
  | .socksDisconnected sid => make_socks_disconnected g g2 sid
  | .uninstallSelf => make_uninstall_self g g2

/-- The header uid a request/response built by `encode_packet` carries
(responses echo the caller's uid, the rest use the wrapper draw). -/
def requestUid (g uid : Nat) : PPayload → Nat
  | .channelSetupAck _ => uid
  | .status _ => uid
  | _ => g

def pldClientId (p : List Nat) : Nat := leDec ((p.drop 17).take 8)

def pldFlags (p : List Nat) : Nat := leDec ((p.drop 25).take 4)

def pldStatus (p : List Nat) : Nat := leDec ((p.drop 17).take 1)

def pldSocksId (p : List Nat) : Nat := leDec ((p.drop 17).take 8)

def pldSocksData (p : List Nat) : List Nat := p.drop 25

/-- Reading the payload fields of a decoded packet back into a `PPayload`,
per opcode (the accesses the worker performs on an `ok` packet). -/
def decodePayload (pkt : List Nat) : Option PPayload :=
  if hdrOpcode pkt = op_channel_setup then
    some (.channelSetup (pldClientId pkt) (pldFlags pkt))
  else if hdrOpcode pkt = op_channel_setup_ack then
    some (.channelSetupAck (pldClientId pkt))
  else if hdrOpcode pkt = op_status then some (.status (pldStatus pkt))
  else if hdrOpcode pkt = op_ping then some .ping
  else if hdrOpcode pkt = op_socks then
    some (.socks (pldSocksId pkt) (pldSocksData pkt))
  else if hdrOpcode pkt = op_socks_close then
    some (.socksClose (pldSocksId pkt))
  else if hdrOpcode pkt = op_socks_disconnected then
    some (.socksDisconnected (pldSocksId pkt))
  else if hdrOpcode pkt = op_uninstall_self then some .uninstallSelf
  else none

/-! ### Worker / router (`svc_worker.h`, `svc_worker.cpp`) -/

/-- Model of `svc_worker::channel_t` (bookkeeping fields; the pipe handle lives in
the pipe manager). -/
structure ChannelT where
  client_id : Nat
  config_flags : Nat
  pipe_token : Nat
  input_buffer : List Nat
  data_recv : Bool
deriving DecidableEq

/-- Model of `svc_worker::client_t`: the two channel slots hold the channels' pipe
tokens (`shared_ptr` identity in the C++), `socks_id_to_token` is the
peer-SOCKS-id → server-session-token map. -/
structure ClientT where
  id : Nat
  chan_read : Option Nat
  chan_write : Option Nat
  socks_id_to_token : List (Nat × Nat)
deriving DecidableEq

/-- The worker tables `m_channels`, `m_clients` and
`m_socks_token_to_client`, as association lists keyed by pipe token,
client id and socks token. -/
structure WorkerState where
  channels : List (Nat × ChannelT)
  clients : List (Nat × ClientT)
  socks_token_to_client : List (Nat × Nat)
deriving DecidableEq

def alookup {α : Type} (l : List (Nat × α)) (k : Nat) : Option α :=
  (l.find? (fun kv => kv.1 == k)).map (·.2)

def aupdate {α : Type} (l : List (Nat × α)) (k : Nat) (v : α) : List (Nat × α) :=
  l.map (fun kv => if kv.1 == k then (k, v) else kv)

/-- The `_configure_channel` lambda of `svc_worker::process_channel_setup`:
the peer's direction flags are INVERTED for the server's bookkeeping
(`chansetup_read → chanconfig_write`, `chansetup_write →
chanconfig_read`). -/
def configure_channel (ch : ChannelT) (clientId flags : Nat) : ChannelT :=
  { ch with
    client_id := clientId
    config_flags :=
      Nat.lor
        (if Nat.land flags chansetup_read ≠ 0 then chanconfig_write else 0)
        (if Nat.land flags chansetup_write ≠ 0 then chanconfig_read else 0) }

/-- Model of `proto::generate_client_id` composed with the `do … while` rejection
loop of `svc_worker::process_channel_setup`: the first PRNG draw that is
neither `proto::invalid_client_id` (0) nor a live client id.  `draws`
stands for the `next64()` outputs of the external PRNG; `none` models the
unbounded loop not finishing within the supplied draws. -/
def generate_client_id (draws : List Nat) (clients : List (Nat × ClientT)) :
    Option Nat :=
  draws.find? (fun c => !(c == 0) && (alookup clients c).isNone)

/-- Model of `svc_worker::process_channel_setup` on a just-connected channel:
returns the updated client table, the updated channel, the
`*out_must_erase` flag and the client id carried by the
`channel_setup_ack` reply (`none` when no ack is sent); the outer `none`
is exhaustion of the id-generator draws. -/
def process_channel_setup (draws : List Nat) (clients : List (Nat × ClientT))
    (ch : ChannelT) (payloadClientId payloadFlags : Nat) :
    Option (List (Nat × ClientT) × ChannelT × Bool × Option Nat) :=
  if payloadClientId = 0 then
    match generate_client_id draws clients with
    | none => none
    | some cid =>
        let ch' := configure_channel ch cid payloadFlags
        let chanRead := if Nat.land ch'.config_flags chanconfig_read ≠ 0
          then some ch'.pipe_token else none
        let chanWrite := if Nat.land ch'.config_flags chanconfig_write ≠ 0
          then some ch'.pipe_token else none
        some ((cid, ⟨cid, chanRead, chanWrite, []⟩) :: clients, ch', false,
          some cid)
  else
    match alookup clients payloadClientId with
    | none => some (clients, ch, true, none)
    | some client =>
        if (Nat.land payloadFlags chansetup_read ≠ 0 ∧ client.chan_write.isSome) ∨
            (Nat.land payloadFlags chansetup_write ≠ 0 ∧ client.chan_read.isSome)
          then some (clients, ch, true, none)
        else
          let ch' := configure_channel ch payloadClientId payloadFlags
          let client' := { client with
            chan_read := if Nat.land ch'.config_flags chanconfig_read ≠ 0
              then some ch'.pipe_token else client.chan_read
            chan_write := if Nat.land ch'.config_flags chanconfig_write ≠ 0
              then some ch'.pipe_token else client.chan_write }
          some (aupdate clients payloadClientId client', ch', false,
            some payloadClientId)

/-- Outcome of one `svc_worker::process_channel_received_data` call. -/
inductive RecvOutcome
  | dispatch (packet : List Nat)
  | stop
  | erase
deriving DecidableEq

/-- Model of `svc_worker::process_channel_received_data` up to the opcode dispatch:
extract one packet from the channel's input buffer; `ok` hands the packet
to `process_channel_received_packet`, `error_incomplete` stops processing,
and every other codec error raises `*out_must_erase` ("disconnect as a
reply to malformed packets"), upon which `process_received_data` calls
`erase_channel_and_client`. -/
def process_channel_received_data (buf : List Nat) : RecvOutcome × List Nat :=
  let r := extract_next_packet buf
  match r.err with
  | .ok => (.dispatch r.packet, r.stream)
  | .error_incomplete => (.stop, r.stream)
  | _ => (.erase, r.stream)

/-- Model of `svc_worker::erase_client`: drop the client, its channels (by their
recorded read/write tokens) and its SOCKS-token reverse mappings from the
worker tables (the `disconnect_client` calls on the collected tokens go to
the SOCKS proxy afterwards, outside these tables). -/
def erase_client (st : WorkerState) (clientId : Nat) : WorkerState :=
  if clientId = 0 then st
  else
    match alookup st.clients clientId with
    | none => st
    | some client =>
        let readTok := client.chan_read.getD 0
        let writeTok := client.chan_write.getD 0
        { channels := st.channels.filter (fun kv =>
            !((readTok != 0) && (kv.1 == readTok)) &&
              !((writeTok != 0) && (kv.1 == writeTok)))
          clients := st.clients.filter (fun kv => !(kv.1 == clientId))
          socks_token_to_client := st.socks_token_to_client.filter (fun kv =>
            !(client.socks_id_to_token.map (·.2)).contains kv.1) }

/-- Model of `svc_worker::erase_channel_and_client`: a channel still pending setup
is dropped alone, otherwise its whole client is erased. -/
def erase_channel_and_client (st : WorkerState) (pipeToken : Nat) : WorkerState :=
  match alookup st.channels pipeToken with
  | none => st
  | some ch =>
      if ch.client_id = 0 then
        { st with
          channels := st.channels.filter (fun kv => !(kv.1 == pipeToken)) }
      else erase_client st ch.client_id

/-- Model of `svc_worker::client_t::find_socks_token_by_id`. -/
def find_socks_token_by_id (cl : ClientT) (socksId : Nat) : Nat :=
  match alookup cl.socks_id_to_token socksId with
  | none => 0
  | some t => t

/-- Model of `svc_worker::client_t::find_socks_id_by_token` (reverse search). -/
def find_socks_id_by_token (cl : ClientT) (socksToken : Nat) : Nat :=
  match cl.socks_id_to_token.find? (fun kv => kv.2 == socksToken) with
  | none => 0
  | some kv => kv.1

/-- Model of `svc_worker::on_socks_close_client`: resolve the session token to its
client and the peer's SOCKS id, and ship `make_socks_close` on the
client's write channel; returns the shipped frame, `none` when nothing is
sent.  `g`/`g2` are the `generate_uid()` draws of `make_socks_close`. -/
def on_socks_close_client (st : WorkerState) (g g2 socksToken : Nat) :
    Option (List Nat) :=
  match alookup st.socks_token_to_client socksToken with
  | none => none
  | some clientId =>
      match alookup st.clients clientId with
      | none => none
      | some client =>
          let socksId := find_socks_id_by_token client socksToken
          if socksId = 0 then none
          else if client.chan_write.isSome then
            some (make_socks_close g g2 socksId)
          else none

/-- Model of `svc_worker::process_channel_received_ping_packet`: reply
`status(status_ok)` with the request's uid on the client's write channel;
without a write channel the channel is torn down. -/
def process_channel_received_ping_packet (g2 requestUid' : Nat)
    (hasWriteChannel : Bool) : Option (List Nat) × Bool :=
  if hasWriteChannel then (some (make_status g2 requestUid' status_ok), false)
  else (none, true)

/-! ### SOCKS originator (`socks_proxy.h`, `socks_proxy.cpp`) -/

def socks_noauth : Nat := 0

def socks_auth_userpass : Nat := 2

def socks_auth_no_supported_method : Nat := 0xff

def socks_cmd_connect : Nat := 1

def socks_addr_ipv4 : Nat := 1

def socks_addr_name : Nat := 3

def socks_addr_ipv6 : Nat := 4

def socks_reply_success : Nat := 0

def socks_reply_general_failure : Nat := 1

def socks_reply_command_not_supported : Nat := 7

def socks_reply_addr_type_not_supported : Nat := 8

def socks_state_newclient : Nat := 0

def socks_state_needauth : Nat := 1

def socks_state_needcmd : Nat := 2

def socks_state_connected : Nat := 3

/-- Result of one SOCKS state-machine handler: the byte buffers pushed
toward the peer (`send_to_client` / `send_reply_to_client`), the session's
new SOCKS state and the handler's return value (`false` makes
`handle_socks_request` take the `__close_and_erase_client` path). -/
structure SocksStepResult where
  responses : List (List Nat)
  state : Nat
  ok : Bool
deriving DecidableEq

/-- Model of `socks_proxy::send_reply_to_client`: every SOCKS reply carries
ATYP=ipv4 with zeroed address and port regardless of the request's address
type (the documented RFC1928 deviation kept by the `#else` branch). -/
def send_reply_to_client (code : Nat) : List Nat :=
  [5, code, 0, socks_addr_ipv4, 0, 0, 0, 0, 0, 0]

/-- Model of `socks_proxy::handle_socks_request__newclient` (SOCKS5 greeting):
favour `no-auth`, else `user/pass`, else refuse.  The scan mirrors the C++
loop — the first offered `no-auth` method returns immediately, a
`user/pass` offer is only remembered.  (The loop indexes `packet[2+idx]`
for `idx < packet[1]` without a bound check, an overread when `nauth`
exceeds the buffer; out-of-range reads are modelled by `getD _ 0`.) -/
def handle_socks_request__newclient (packet : List Nat) : SocksStepResult :=
  if 3 ≤ packet.length ∧ packet.getD 0 0 = 5 then
    let nauth := packet.getD 1 0
    let methods := (List.range nauth).map (fun i => packet.getD (2 + i) 0)
    if methods.contains socks_noauth then
      ⟨[[5, socks_noauth]], socks_state_needcmd, true⟩
    else if methods.contains socks_auth_userpass then
      ⟨[[5, socks_auth_userpass]], socks_state_needauth, true⟩
    else ⟨[[5, socks_auth_no_supported_method]], socks_state_newclient, false⟩
  else ⟨[[5, socks_auth_no_supported_method]], socks_state_newclient, false⟩

/-- Model of `socks_proxy::handle_socks_request__needauth` (user/pass
sub-negotiation; credentials are logged, never validated). -/
def handle_socks_request__needauth (packet : List Nat) : SocksStepResult :=
  if packet.getD 0 0 = 1 ∧ 1 ≤ packet.getD 1 0 ∧ 5 ≤ packet.length then
    let user_len := packet.getD 1 0
    if 4 + user_len ≤ packet.length then
      let pass_len := packet.getD (2 + user_len) 0
      if packet.length = 3 + user_len + pass_len then
        ⟨[[1, 0]], socks_state_needcmd, true⟩
      else ⟨[[1, 1]], socks_state_needauth, false⟩
    else ⟨[[1, 1]], socks_state_needauth, false⟩
  else ⟨[[1, 1]], socks_state_needauth, false⟩

/-- Model of `socks_proxy::handle_socks_request__needcmd` (the SOCKS5 CONNECT
request), with the external network steps as oracle parameters:
`inetNtopOk` is "`wincompat::inet_ntop` succeeded and produced a non-empty
string", `resolveOk` is "`socks_proxy::resolve` returned 0", and
`connectReply` is the `socks_reply_code_t` returned by
`socks_proxy::connect_socket`.  The `packet.size() >= required_min_len`
comparison of the ipv4/ipv6 branch is transcribed exactly as the C++ has
it (its body is an `assert(0)` error branch).  The name branch's
`!addr_str[0]` check reads the first copied name byte. -/
def handle_socks_request__needcmd (resolveOk inetNtopOk : Bool)
    (connectReply : Nat) (packet : List Nat) : SocksStepResult :=
  if packet.length < 10 ∨ packet.getD 0 0 ≠ 5 ∨ packet.getD 2 0 ≠ 0 then
    ⟨[send_reply_to_client socks_reply_general_failure],
      socks_state_needcmd, false⟩
  else if packet.getD 1 0 ≠ socks_cmd_connect then
    ⟨[send_reply_to_client socks_reply_command_not_supported],
      socks_state_needcmd, false⟩
  else
    let addr_type := packet.getD 3 0
    if addr_type = socks_addr_ipv6 ∨ addr_type = socks_addr_ipv4 then
      let required_min_len := if addr_type = socks_addr_ipv6 then 22 else 10
      if required_min_len ≤ packet.length then
        ⟨[send_reply_to_client socks_reply_general_failure],
          socks_state_needcmd, false⟩
      else if ¬ inetNtopOk then
        ⟨[send_reply_to_client socks_reply_general_failure],
          socks_state_needcmd, false⟩
      else if ¬ resolveOk then
        ⟨[send_reply_to_client socks_reply_general_failure],
          socks_state_needcmd, false⟩
      else if connectReply ≠ socks_reply_success then
        ⟨[send_reply_to_client connectReply], socks_state_needcmd, false⟩
      else
        ⟨[send_reply_to_client socks_reply_success], socks_state_connected, true⟩
    else if addr_type = socks_addr_name then
      let name_len := packet.getD 4 0
      let required_min_len := 7 + name_len
      if required_min_len ≤ 7 ∨ packet.length < required_min_len then
        ⟨[send_reply_to_client socks_reply_general_failure],
          socks_state_needcmd, false⟩
      else if packet.getD 5 0 = 0 then
        ⟨[send_reply_to_client socks_reply_general_failure],
          socks_state_needcmd, false⟩
      else if ¬ resolveOk then
        ⟨[send_reply_to_client socks_reply_general_failure],
          socks_state_needcmd, false⟩
      else if connectReply ≠ socks_reply_success then
        ⟨[send_reply_to_client connectReply], socks_state_needcmd, false⟩
      else
        ⟨[send_reply_to_client socks_reply_success], socks_state_connected, true⟩
    else
      ⟨[send_reply_to_client socks_reply_addr_type_not_supported],
        socks_state_needcmd, false⟩

/-- Model of `socks_proxy::handle_socks_request`: dispatch on the session state; on
a `false` handler return the wrapper runs `__close_and_erase_client`
(`request_close`, which raises `on_socks_close_client` toward the worker,
then `erase_client`).  Returns the handler result and whether the session
was closed and erased.  `connValid`/`sendOk` are the oracle inputs of the
`connected` state (`client.conn != INVALID_SOCKET`, `send_to_target`). -/
def handle_socks_request (resolveOk inetNtopOk : Bool) (connectReply : Nat)
    (connValid sendOk : Bool) (state : Nat) (packet : List Nat) :
    SocksStepResult × Bool :=
  if state = socks_state_newclient then
    let r := handle_socks_request__newclient packet
    (r, !r.ok)
  else if state = socks_state_needauth then
    let r := handle_socks_request__needauth packet
    (r, !r.ok)
  else if state = socks_state_needcmd then
    let r := handle_socks_request__needcmd resolveOk inetNtopOk connectReply packet
    (r, !r.ok)
  else if state = socks_state_connected then
    let ok := connValid && sendOk
    (⟨[], state, ok⟩, !ok)
  else (⟨[], state, false⟩, true)

/-! ### Pipe instance write back-pressure
(`cix/win_namedpipe_server.h`, `win_namedpipe_server.cpp`) -/

/-- Model of `cix::win_namedpipe_server::max_pending_kernel_writes`. -/
def max_pending_kernel_writes : Nat := 10

/-- State of one `win_namedpipe_server::instance_t`: the number of
in-flight kernel writes (`m_olwrites.size()`), the queued outgoing buffers
(`m_output`, FIFO), plus two history lists — the buffers already issued to
the kernel (in issue order) and all buffers submitted through `write()`
(in submission order) — to state the FIFO property. -/
structure PipeInstState where
  olwrites : Nat
  output : List (List Nat)
  issued : List (List Nat)
  submitted : List (List Nat)
deriving DecidableEq

/-- The three events that change an instance's write state:
`write()` pushes onto the FIFO (never issues — see the "do not call
proceed() from here" caution); `proceed()` issues at most one queued
buffer via `WriteFileEx`, only when the FIFO is non-empty and fewer than
`max_pending_kernel_writes` writes are in flight (or the cap is 0);
`on_written` (the completion callback) retires one in-flight write. -/
inductive PipeInstStep : PipeInstState → PipeInstState → Prop
  | write (s : PipeInstState) (buf : List Nat) :
      PipeInstStep s
        ⟨s.olwrites, s.output ++ [buf], s.issued, s.submitted ++ [buf]⟩
  | proceed_issue (s : PipeInstState) (buf : List Nat) (rest : List (List Nat)) :
      s.output = buf :: rest →
      (max_pending_kernel_writes = 0 ∨
        s.olwrites < max_pending_kernel_writes) →
      PipeInstStep s
        ⟨s.olwrites + 1, rest, s.issued ++ [buf], s.submitted⟩
  | on_written (s : PipeInstState) (k : Nat) :
      s.olwrites = k + 1 →
      PipeInstStep s ⟨k, s.output, s.issued, s.submitted⟩

/-- States reachable from a freshly created instance (no pending writes,
empty FIFO). -/
def PipeInstReachable (s : PipeInstState) : Prop :=
  Relation.ReflTransGen PipeInstStep ⟨0, [], [], []⟩ s

/-! ### Basic list and byte-layout lemmas -/

theorem length_leEnc (k n : Nat) : (leEnc k n).length = k := by
  induction k generalizing n with
  | zero => rfl
  | succ k ih => simp [leEnc, ih]

theorem leDec_leEnc (k n : Nat) : leDec (leEnc k n) = n % 256 ^ k := by
  induction k generalizing n with
  | zero => simp [leEnc, leDec, Nat.mod_one]
  | succ k ih =>
      simp only [leEnc, leDec, ih]
      rw [Nat.pow_succ']
      have h1 : n % (256 * 256 ^ k) / 256 = n / 256 % 256 ^ k :=
        Nat.mod_mul_right_div_self n 256 (256 ^ k)
      have h2 : n % (256 * 256 ^ k) % 256 = n % 256 :=
        Nat.mod_mod_of_dvd n ⟨256 ^ k, rfl⟩
      have h3 := Nat.div_add_mod (n % (256 * 256 ^ k)) 256
      omega

theorem drop_app_add (a b : List Nat) (n : Nat) :
    (a ++ b).drop (a.length + n) = b.drop n := by
  induction a with
  | nil => simp
  | cons x a ih => simpa [Nat.succ_add] using ih

theorem take_app_add (a b : List Nat) (n : Nat) :
    (a ++ b).take (a.length + n) = a ++ b.take n := by
  induction a with
  | nil => simp
  | cons x a ih => simpa [Nat.succ_add] using ih

theorem drop_app_len (a b : List Nat) : (a ++ b).drop a.length = b := by
  simpa using drop_app_add a b 0

theorem take_app_len (a b : List Nat) : (a ++ b).take a.length = a := by
  simpa using take_app_add a b 0

theorem crc32Round_lt (c : Nat) (h : c < 4294967296) :
    crc32Round c < 4294967296 := by
  unfold crc32Round
  split
  · exact Nat.xor_lt_two_pow (n := 32) (by omega) (by norm_num)
  · omega

theorem crc32Byte_lt (c b : Nat) (h : c < 4294967296) :
    crc32Byte c b < 4294967296 := by
  have h0 : Nat.xor c (b % 256) < 4294967296 :=
    Nat.xor_lt_two_pow (n := 32) h (by have := Nat.mod_lt b (y := 256) (by norm_num); omega)
  unfold crc32Byte
  exact crc32Round_lt _ (crc32Round_lt _ (crc32Round_lt _ (crc32Round_lt _
    (crc32Round_lt _ (crc32Round_lt _ (crc32Round_lt _ (crc32Round_lt _ h0)))))))

theorem cix_crc32_update_lt (data : List Nat) (c : Nat) (h : c < 4294967296) :
    cix_crc32_update c data < 4294967296 := by
  induction data generalizing c with
  | nil => exact h
  | cons b r ih => exact ih _ (crc32Byte_lt c b h)

theorem cix_crc32_lt (data : List Nat) : cix_crc32 data < 4294967296 := by
  unfold cix_crc32
  exact Nat.xor_lt_two_pow (n := 32)
    (cix_crc32_update_lt data _ (by norm_num)) (by norm_num)

/-! ### Header block decomposition

Every consolidated packet is `magic ++ len ++ crc ++ uid ++ [opcode] ++
payload` with three 4-byte header fields; these lemmas read the header
fields off that shape (stated in right-nested `++` form). -/

theorem drop4_len4 (a r : List Nat) (h : a.length = 4) : (a ++ r).drop 4 = r := by
  rw [← h, drop_app_len]

theorem take4_len4 (a r : List Nat) (h : a.length = 4) : (a ++ r).take 4 = a := by
  rw [← h, take_app_len]

theorem magicBytes_length : magicBytes.length = 4 := rfl

theorem blocks_length (x2 x3 x4 : List Nat) (b : Nat) (pay : List Nat)
    (h2 : x2.length = 4) (h3 : x3.length = 4) (h4 : x4.length = 4) :
    (magicBytes ++ (x2 ++ (x3 ++ (x4 ++ ([b] ++ pay))))).length =
      17 + pay.length := by
  simp [magicBytes, h2, h3, h4]
  omega

theorem blocks_drop4 (x2 x3 x4 : List Nat) (b : Nat) (pay : List Nat) :
    (magicBytes ++ (x2 ++ (x3 ++ (x4 ++ ([b] ++ pay))))).drop 4 =
      x2 ++ (x3 ++ (x4 ++ ([b] ++ pay))) :=
  drop4_len4 magicBytes _ rfl

theorem blocks_drop8 (x2 x3 x4 : List Nat) (b : Nat) (pay : List Nat)
    (h2 : x2.length = 4) :
    (magicBytes ++ (x2 ++ (x3 ++ (x4 ++ ([b] ++ pay))))).drop 8 =
      x3 ++ (x4 ++ ([b] ++ pay)) := by
  rw [show (8 : Nat) = 4 + 4 from rfl, ← List.drop_drop,
    blocks_drop4 x2 x3 x4 b pay, drop4_len4 x2 _ h2]

theorem blocks_drop12 (x2 x3 x4 : List Nat) (b : Nat) (pay : List Nat)
    (h2 : x2.length = 4) (h3 : x3.length = 4) :
    (magicBytes ++ (x2 ++ (x3 ++ (x4 ++ ([b] ++ pay))))).drop 12 =
      x4 ++ ([b] ++ pay) := by
  rw [show (12 : Nat) = 8 + 4 from rfl, ← List.drop_drop,
    blocks_drop8 x2 x3 x4 b pay h2, drop4_len4 x3 _ h3]

theorem blocks_drop16 (x2 x3 x4 : List Nat) (b : Nat) (pay : List Nat)
    (h2 : x2.length = 4) (h3 : x3.length = 4) (h4 : x4.length = 4) :
    (magicBytes ++ (x2 ++ (x3 ++ (x4 ++ ([b] ++ pay))))).drop 16 =
      [b] ++ pay := by
  rw [show (16 : Nat) = 12 + 4 from rfl, ← List.drop_drop,
    blocks_drop12 x2 x3 x4 b pay h2 h3, drop4_len4 x4 _ h4]

theorem blocks_drop17 (x2 x3 x4 : List Nat) (b : Nat) (pay : List Nat)
    (h2 : x2.length = 4) (h3 : x3.length = 4) (h4 : x4.length = 4) :
    (magicBytes ++ (x2 ++ (x3 ++ (x4 ++ ([b] ++ pay))))).drop 17 = pay := by
  rw [show (17 : Nat) = 16 + 1 from rfl, ← List.drop_drop,
    blocks_drop16 x2 x3 x4 b pay h2 h3 h4]
  rfl

theorem blocks_take8 (x2 x3 x4 : List Nat) (b : Nat) (pay : List Nat)
    (h2 : x2.length = 4) :
    (magicBytes ++ (x2 ++ (x3 ++ (x4 ++ ([b] ++ pay))))).take 8 =
      magicBytes ++ x2 := by
  rw [show (8 : Nat) = magicBytes.length + 4 from rfl, take_app_add,
    take4_len4 x2 _ h2]

theorem blocks_hdrLen (x2 x3 x4 : List Nat) (b : Nat) (pay : List Nat)
    (h2 : x2.length = 4) :
    hdrLen (magicBytes ++ (x2 ++ (x3 ++ (x4 ++ ([b] ++ pay))))) = leDec x2 := by
  rw [hdrLen, blocks_drop4, take4_len4 x2 _ h2]

theorem blocks_hdrCrc (x2 x3 x4 : List Nat) (b : Nat) (pay : List Nat)
    (h2 : x2.length = 4) (h3 : x3.length = 4) :
    hdrCrc (magicBytes ++ (x2 ++ (x3 ++ (x4 ++ ([b] ++ pay))))) = leDec x3 := by
  rw [hdrCrc, blocks_drop8 x2 x3 x4 b pay h2, take4_len4 x3 _ h3]

theorem blocks_hdrUid (x2 x3 x4 : List Nat) (b : Nat) (pay : List Nat)
    (h2 : x2.length = 4) (h3 : x3.length = 4) (h4 : x4.length = 4) :
    hdrUid (magicBytes ++ (x2 ++ (x3 ++ (x4 ++ ([b] ++ pay))))) = leDec x4 := by
  rw [hdrUid, blocks_drop12 x2 x3 x4 b pay h2 h3, take4_len4 x4 _ h4]

theorem blocks_hdrOpcode (x2 x3 x4 : List Nat) (b : Nat) (pay : List Nat)
    (h2 : x2.length = 4) (h3 : x3.length = 4) (h4 : x4.length = 4) :
    hdrOpcode (magicBytes ++ (x2 ++ (x3 ++ (x4 ++ ([b] ++ pay))))) = b % 256 := by
  rw [hdrOpcode, blocks_drop16 x2 x3 x4 b pay h2 h3 h4]
  simp [leDec]

theorem blocks_proto_crc32 (x2 x3 x4 : List Nat) (b : Nat) (pay : List Nat)
    (h2 : x2.length = 4) (h3 : x3.length = 4) (h4 : x4.length = 4)
    (hl : leDec x2 = 17 + pay.length) :
    proto_crc32 (magicBytes ++ (x2 ++ (x3 ++ (x4 ++ ([b] ++ pay))))) =
      cix_crc32 ((magicBytes ++ x2) ++ ([0, 0, 0, 0] ++ (x4 ++ ([b] ++ pay)))) := by
  rw [proto_crc32, blocks_hdrLen x2 x3 x4 b pay h2,
    blocks_take8 x2 x3 x4 b pay h2, blocks_drop12 x2 x3 x4 b pay h2 h3, hl]
  have hlen : (x4 ++ ([b] ++ pay)).length = 5 + pay.length := by
    simp [h4]
    omega
  rw [List.take_of_length_le (by omega)]
  simp

theorem setBytes4_blocks (x2 x3 x4 : List Nat) (b : Nat) (pay bs : List Nat)
    (h2 : x2.length = 4) (hbs : bs.length = 4) :
    setBytes (magicBytes ++ (x2 ++ (x3 ++ (x4 ++ ([b] ++ pay))))) 4 bs =
      magicBytes ++ (bs ++ (x3 ++ (x4 ++ ([b] ++ pay))))  := by
  unfold setBytes
  rw [hbs, show (4 + 4 : Nat) = 8 from rfl, blocks_drop8 x2 x3 x4 b pay h2,
    take4_len4 magicBytes _ rfl]
  simp [List.append_assoc]

theorem setBytes8_blocks (x2 x3 x4 : List Nat) (b : Nat) (pay bs : List Nat)
    (h2 : x2.length = 4) (h3 : x3.length = 4) (hbs : bs.length = 4) :
    setBytes (magicBytes ++ (x2 ++ (x3 ++ (x4 ++ ([b] ++ pay))))) 8 bs =
      magicBytes ++ (x2 ++ (bs ++ (x4 ++ ([b] ++ pay))))  := by
  unfold setBytes
  rw [hbs, show (8 + 4 : Nat) = 12 from rfl, blocks_drop12 x2 x3 x4 b pay h2 h3,
    blocks_take8 x2 x3 x4 b pay h2]
  simp [List.append_assoc]

theorem consolidate_blocks (x2 x3 x4 : List Nat) (b : Nat) (pay : List Nat)
    (h2 : x2.length = 4) (h3 : x3.length = 4) (h4 : x4.length = 4) :
    consolidate_packet (magicBytes ++ (x2 ++ (x3 ++ (x4 ++ ([b] ++ pay))))) =
      magicBytes ++ (leEnc 4 (17 + pay.length) ++
        (leEnc 4 (proto_crc32 (magicBytes ++ (leEnc 4 (17 + pay.length) ++
            (x3 ++ (x4 ++ ([b] ++ pay)))))) ++
          (x4 ++ ([b] ++ pay)))) := by
  simp only [consolidate_packet]
  rw [blocks_length x2 x3 x4 b pay h2 h3 h4,
    setBytes4_blocks x2 x3 x4 b pay _ h2 (length_leEnc 4 _),
    setBytes8_blocks (leEnc 4 (17 + pay.length)) x3 x4 b pay _
      (length_leEnc 4 _) h3 (length_leEnc 4 _)]

theorem make_packet_blocks (gen uid op n : Nat) (pay : List Nat) :
    make_packet gen uid op n ++ pay =
      magicBytes ++ (leEnc 4 (17 + n) ++ (leEnc 4 0 ++
        (leEnc 4 (if uid ≠ 4294967295 then uid else gen) ++ ([op] ++ pay)))) := by
  simp [make_packet, List.append_assoc]

theorem encodeRaw_eq (gen uid op : Nat) (pay : List Nat) :
    encodeRaw gen uid op pay =
      magicBytes ++ (leEnc 4 (17 + pay.length) ++
        (leEnc 4 (proto_crc32 (magicBytes ++ (leEnc 4 (17 + pay.length) ++
            (leEnc 4 0 ++ (leEnc 4 (if uid ≠ 4294967295 then uid else gen) ++
              ([op] ++ pay)))))) ++
          (leEnc 4 (if uid ≠ 4294967295 then uid else gen) ++ ([op] ++ pay)))) := by
  rw [encodeRaw, make_packet_blocks gen uid op pay.length pay,
    consolidate_blocks _ _ _ _ _ (length_leEnc 4 _) (length_leEnc 4 _)
      (length_leEnc 4 _)]

theorem proto_crc32_lt (p : List Nat) : proto_crc32 p < 4294967296 :=
  cix_crc32_lt _

theorem findMagic_at_front (r : List Nat) :
    findMagic (magicBytes ++ r) = some 0 := by
  show findMagic (0xe4 :: 0x85 :: 0xb4 :: 0xb2 :: r) = some 0
  rw [findMagic]
  norm_num

theorem leDec_leEnc4 (n : Nat) : leDec (leEnc 4 n) = n % 4294967296 := by
  rw [leDec_leEnc]
  norm_num

theorem leDec_leEnc8 (n : Nat) : leDec (leEnc 8 n) = n % 18446744073709551616 := by
  rw [leDec_leEnc]
  norm_num

theorem extract_encodeRaw (gen uid op : Nat) (pay : List Nat)
    (hop : op < 256)
    (hlen : 17 + pay.length ≤ max_packet_size)
    (hsz : packetSizeOk op (17 + pay.length) = true) :
    extract_next_packet (encodeRaw gen uid op pay) =
      ⟨.ok, [], encodeRaw gen uid op pay,
        (if uid ≠ 4294967295 then uid else gen) % 4294967296⟩ := by
  have hmax : max_packet_size = 16777216 := rfl
  set euid := if uid ≠ 4294967295 then uid else gen with heuid
  set n := pay.length with hn
  set C := proto_crc32 (magicBytes ++ (leEnc 4 (17 + n) ++
    (leEnc 4 0 ++ (leEnc 4 euid ++ ([op] ++ pay))))) with hC
  have henc : encodeRaw gen uid op pay =
      magicBytes ++ (leEnc 4 (17 + n) ++ (leEnc 4 C ++
        (leEnc 4 euid ++ ([op] ++ pay)))) := encodeRaw_eq gen uid op pay
  set e := magicBytes ++ (leEnc 4 (17 + n) ++ (leEnc 4 C ++
    (leEnc 4 euid ++ ([op] ++ pay)))) with he
  have hlength : e.length = 17 + n :=
    blocks_length _ _ _ _ _ (length_leEnc 4 _) (length_leEnc 4 _) (length_leEnc 4 _)
  have hne : e ≠ [] := by
    intro h
    rw [h] at hlength
    simp only [List.length_nil] at hlength
    omega
  have hfind : findMagic e = some 0 := findMagic_at_front _
  have hLsmall : (17 + n) % 4294967296 = 17 + n := by
    apply Nat.mod_eq_of_lt
    omega
  have hdl : hdrLen e = 17 + n := by
    rw [he, blocks_hdrLen _ _ _ _ _ (length_leEnc 4 _), leDec_leEnc4, hLsmall]
  have hdu : hdrUid e = euid % 4294967296 := by
    rw [he, blocks_hdrUid _ _ _ _ _ (length_leEnc 4 _) (length_leEnc 4 _)
      (length_leEnc 4 _), leDec_leEnc4]
  have hdc : hdrCrc e = C := by
    rw [he, blocks_hdrCrc _ _ _ _ _ (length_leEnc 4 _) (length_leEnc 4 _),
      leDec_leEnc4]
    exact Nat.mod_eq_of_lt (by rw [hC]; exact proto_crc32_lt _)
  have hl2 : leDec (leEnc 4 (17 + n)) = 17 + pay.length := by
    rw [leDec_leEnc4, hLsmall]
  have hcrc : proto_crc32 e = C := by
    rw [he, blocks_proto_crc32 _ _ _ _ _ (length_leEnc 4 _) (length_leEnc 4 _)
      (length_leEnc 4 _) hl2, hC,
      blocks_proto_crc32 _ _ _ _ _ (length_leEnc 4 _) (length_leEnc 4 _)
      (length_leEnc 4 _) hl2]
  have htakeall : e.take (17 + n) = e := by
    rw [← hlength]
    exact List.take_length e
  have hdo : hdrOpcode e = op := by
    rw [he, blocks_hdrOpcode _ _ _ _ _ (length_leEnc 4 _) (length_leEnc 4 _)
      (length_leEnc 4 _)]
    exact Nat.mod_eq_of_lt hop
  have hex : extract_packet e = (.ok, e, euid % 4294967296) := by
    rw [extract_packet]
    simp only [hdl, hdu, hdc, hcrc, htakeall, hdo]
    rw [if_neg (by omega), if_neg (by rw [hlength]; omega), if_neg (by simp),
      if_pos]
    rw [hsz]
  rw [henc]
  rw [extract_next_packet, if_neg hne, hfind]
  simp only [List.drop_zero, hex]
  rw [if_neg (by rw [hlength]; simp [headerSize])]
  simp [List.drop_length]

theorem drop8_len8 (a r : List Nat) (h : a.length = 8) : (a ++ r).drop 8 = r := by
  rw [← h, drop_app_len]

theorem take8_len8 (a r : List Nat) (h : a.length = 8) : (a ++ r).take 8 = a := by
  rw [← h, take_app_len]

theorem leEnc4_zero : leEnc 4 0 = [0, 0, 0, 0] := rfl

theorem encodeRaw_hdrOpcode (gen uid op : Nat) (pay : List Nat) (hop : op < 256) :
    hdrOpcode (encodeRaw gen uid op pay) = op := by
  rw [encodeRaw_eq, blocks_hdrOpcode _ _ _ _ _ (length_leEnc 4 _)
    (length_leEnc 4 _) (length_leEnc 4 _)]
  exact Nat.mod_eq_of_lt hop

theorem encodeRaw_drop17 (gen uid op : Nat) (pay : List Nat) :
    (encodeRaw gen uid op pay).drop 17 = pay := by
  rw [encodeRaw_eq, blocks_drop17 _ _ _ _ _ (length_leEnc 4 _)
    (length_leEnc 4 _) (length_leEnc 4 _)]

theorem encodeRaw_drop25 (gen uid op : Nat) (a r : List Nat) (ha : a.length = 8) :
    (encodeRaw gen uid op (a ++ r)).drop 25 = r := by
  rw [show (25 : Nat) = 17 + 8 from rfl, ← List.drop_drop,
    encodeRaw_drop17, drop8_len8 a r ha]

theorem encodeRaw_hdrUid (gen uid op : Nat) (pay : List Nat) :
    hdrUid (encodeRaw gen uid op pay) =
      (if uid ≠ 4294967295 then uid else gen) % 4294967296 := by
  rw [encodeRaw_eq, blocks_hdrUid _ _ _ _ _ (length_leEnc 4 _)
    (length_leEnc 4 _) (length_leEnc 4 _), leDec_leEnc4]

/-- The CRC field written by `consolidate_packet` equals the CRC computed
over the packet with its CRC field zeroed. -/
theorem encodeRaw_crc_matches (gen uid op : Nat) (pay : List Nat)
    (hlen : 17 + pay.length ≤ max_packet_size) :
    hdrCrc (encodeRaw gen uid op pay) =
      proto_crc32 (setBytes (encodeRaw gen uid op pay) 8 [0, 0, 0, 0]) := by
  have hmax : max_packet_size = 16777216 := rfl
  have hl2 : leDec (leEnc 4 (17 + pay.length)) = 17 + pay.length := by
    rw [leDec_leEnc4]
    apply Nat.mod_eq_of_lt
    omega
  rw [encodeRaw_eq]
  rw [blocks_hdrCrc _ _ _ _ _ (length_leEnc 4 _) (length_leEnc 4 _),
    leDec_leEnc4, Nat.mod_eq_of_lt (proto_crc32_lt _)]
  rw [setBytes8_blocks _ _ _ _ _ [0, 0, 0, 0] (length_leEnc 4 _)
    (length_leEnc 4 _) (by norm_num)]
  rw [blocks_proto_crc32 _ [0, 0, 0, 0] _ _ _ (length_leEnc 4 _) (by norm_num)
    (length_leEnc 4 _) hl2]
  rw [blocks_proto_crc32 _ _ _ _ _ (length_leEnc 4 _) (length_leEnc 4 _)
    (length_leEnc 4 _) hl2]

theorem extract_encodeRaw_clean (g2 u op : Nat) (pay : List Nat)
    (hop : op < 256) (hu : u < 4294967296) (hus : u ≠ 4294967295)
    (hlen : 17 + pay.length ≤ max_packet_size)
    (hsz : packetSizeOk op (17 + pay.length) = true) :
    extract_next_packet (encodeRaw g2 u op pay) =
      ⟨.ok, [], encodeRaw g2 u op pay, u⟩ := by
  have h := extract_encodeRaw g2 u op pay hop hlen hsz
  rw [if_pos hus, Nat.mod_eq_of_lt hu] at h
  exact h

theorem take_all_len4 (a : List Nat) (h : a.length = 4) : a.take 4 = a := by
  rw [← h, List.take_length]

theorem take_all_len8 (a : List Nat) (h : a.length = 8) : a.take 8 = a := by
  rw [← h, List.take_length]

/-- C2: for every opcode of the protocol and every admissible payload,
decoding the encoder output returns `ok` with the same opcode and payload
field values, consumes the packet exactly, echoes the header uid, and the
packet's CRC-32 field matches the CRC computed over the packet with the
CRC field zeroed. -/
theorem extract_encode_roundtrip (g g2 uid : Nat) (p : PPayload)
    (hg : g < 4294967296) (hgs : g ≠ 4294967295)
    (hu : uid < 4294967296) (hus : uid ≠ 4294967295)
    (hadm : PAdmissible p) :
    extract_next_packet (encode_packet g g2 uid p) =
      ⟨.ok, [], encode_packet g g2 uid p, requestUid g uid p⟩ ∧
    decodePayload (encode_packet g g2 uid p) = some p ∧
    hdrCrc (encode_packet g g2 uid p) =
      proto_crc32 (setBytes (encode_packet g g2 uid p) 8 [0, 0, 0, 0]) := by
  cases p with
  | channelSetup cid fl =>
      obtain ⟨hcid, hfl⟩ := hadm
      simp only [encode_packet, make_channel_setup, requestUid]
      have hplen : (leEnc 8 cid ++ leEnc 4 fl).length = 12 := by
        simp [length_leEnc]
      have hid : pldClientId (encodeRaw g2 g op_channel_setup
          (leEnc 8 cid ++ leEnc 4 fl)) = cid := by
        rw [pldClientId, encodeRaw_drop17, take8_len8 _ _ (length_leEnc 8 _),
          leDec_leEnc8, Nat.mod_eq_of_lt (by exact_mod_cast hcid)]
      have hflv : pldFlags (encodeRaw g2 g op_channel_setup
          (leEnc 8 cid ++ leEnc 4 fl)) = fl := by
        rw [pldFlags, encodeRaw_drop25 _ _ _ _ _ (length_leEnc 8 _),
          take_all_len4 _ (length_leEnc 4 _), leDec_leEnc4,
          Nat.mod_eq_of_lt (by exact_mod_cast hfl)]
      have hop : hdrOpcode (encodeRaw g2 g op_channel_setup
          (leEnc 8 cid ++ leEnc 4 fl)) = op_channel_setup :=
        encodeRaw_hdrOpcode _ _ _ _ (by decide)
      refine ⟨?_, ?_, ?_⟩
      · exact extract_encodeRaw_clean g2 g op_channel_setup _ (by decide) hg hgs
          (by rw [hplen]; decide) (by rw [hplen]; decide)
      · rw [decodePayload, if_pos hop, hid, hflv]
      · exact encodeRaw_crc_matches g2 g op_channel_setup _ (by rw [hplen]; decide)
  | channelSetupAck cid =>
      have hcid := hadm
      simp only [encode_packet, make_channel_setup_ack, requestUid]
      have hplen : (leEnc 8 cid).length = 8 := length_leEnc 8 cid
      have hid : pldClientId (encodeRaw g2 uid op_channel_setup_ack
          (leEnc 8 cid)) = cid := by
        rw [pldClientId, encodeRaw_drop17, take_all_len8 _ (length_leEnc 8 _),
          leDec_leEnc8, Nat.mod_eq_of_lt (by exact_mod_cast hcid)]
      have hop : hdrOpcode (encodeRaw g2 uid op_channel_setup_ack
          (leEnc 8 cid)) = op_channel_setup_ack :=
        encodeRaw_hdrOpcode _ _ _ _ (by decide)
      refine ⟨?_, ?_, ?_⟩
      · exact extract_encodeRaw_clean g2 uid op_channel_setup_ack _ (by decide)
          hu hus (by rw [hplen]; decide) (by rw [hplen]; decide)
      · rw [decodePayload, if_neg (by rw [hop]; decide), if_pos hop, hid]
      · exact encodeRaw_crc_matches g2 uid op_channel_setup_ack _
          (by rw [hplen]; decide)
  | status st =>
      have hst := hadm
      simp only [encode_packet, make_status, requestUid]
      have hplen : ([st % 256]).length = 1 := rfl
      have hsv : pldStatus (encodeRaw g2 uid op_status [st % 256]) = st := by
        rw [pldStatus, encodeRaw_drop17]
        simp [leDec, Nat.mod_eq_of_lt hst]
      have hop : hdrOpcode (encodeRaw g2 uid op_status [st % 256]) = op_status :=
        encodeRaw_hdrOpcode _ _ _ _ (by decide)
      refine ⟨?_, ?_, ?_⟩
      · exact extract_encodeRaw_clean g2 uid op_status _ (by decide) hu hus
          (by rw [hplen]; decide) (by rw [hplen]; decide)
      · rw [decodePayload, if_neg (by rw [hop]; decide),
          if_neg (by rw [hop]; decide), if_pos hop, hsv]
      · exact encodeRaw_crc_matches g2 uid op_status _ (by rw [hplen]; decide)
  | ping =>
      simp only [encode_packet, make_ping, requestUid]
      have hop : hdrOpcode (encodeRaw g2 g op_ping []) = op_ping :=
        encodeRaw_hdrOpcode _ _ _ _ (by decide)
      refine ⟨?_, ?_, ?_⟩
      · exact extract_encodeRaw_clean g2 g op_ping _ (by decide) hg hgs
          (by decide) (by decide)
      · rw [decodePayload, if_neg (by rw [hop]; decide),
          if_neg (by rw [hop]; decide), if_neg (by rw [hop]; decide),
          if_pos hop]
      · exact encodeRaw_crc_matches g2 g op_ping _ (by decide)
  | socks sid d =>
      obtain ⟨hsid, hsid0, hdne, hdlen, hdbytes⟩ := hadm
      simp only [encode_packet, make_socks, requestUid]
      have hd1 : 1 ≤ d.length := List.length_pos.mpr hdne
      have hdlen' : 25 + d.length ≤ 16777216 := hdlen
      have hplen : (leEnc 8 sid ++ d).length = 8 + d.length := by
        simp [length_leEnc]
      have hid : pldSocksId (encodeRaw g2 g op_socks (leEnc 8 sid ++ d)) = sid := by
        rw [pldSocksId, encodeRaw_drop17, take8_len8 _ _ (length_leEnc 8 _),
          leDec_leEnc8, Nat.mod_eq_of_lt (by exact_mod_cast hsid)]
      have hdat : pldSocksData (encodeRaw g2 g op_socks (leEnc 8 sid ++ d)) = d := by
        rw [pldSocksData, encodeRaw_drop25 _ _ _ _ _ (length_leEnc 8 _)]
      have hop : hdrOpcode (encodeRaw g2 g op_socks (leEnc 8 sid ++ d)) = op_socks :=
        encodeRaw_hdrOpcode _ _ _ _ (by decide)
      refine ⟨?_, ?_, ?_⟩
      · refine extract_encodeRaw_clean g2 g op_socks _ (by decide) hg hgs ?_ ?_
        · rw [hplen]
          show 17 + (8 + d.length) ≤ 16777216
          omega
        · rw [hplen]
          simp only [packetSizeOk, op_socks, op_channel_setup,
            op_channel_setup_ack, op_status, op_ping, op_uninstall_self]
          norm_num
          omega
      · rw [decodePayload, if_neg (by rw [hop]; decide),
          if_neg (by rw [hop]; decide), if_neg (by rw [hop]; decide),
          if_neg (by rw [hop]; decide), if_pos hop, hid, hdat]
      · refine encodeRaw_crc_matches g2 g op_socks _ ?_
        rw [hplen]
        show 17 + (8 + d.length) ≤ 16777216
        omega
  | socksClose sid =>
      obtain ⟨hsid, hsid0⟩ := hadm
      simp only [encode_packet, make_socks_close, requestUid]
      have hplen : (leEnc 8 sid).length = 8 := length_leEnc 8 sid
      have hid : pldSocksId (encodeRaw g2 g op_socks_close (leEnc 8 sid)) = sid := by
        rw [pldSocksId, encodeRaw_drop17, take_all_len8 _ (length_leEnc 8 _),
          leDec_leEnc8, Nat.mod_eq_of_lt (by exact_mod_cast hsid)]
      have hop : hdrOpcode (encodeRaw g2 g op_socks_close (leEnc 8 sid)) =
          op_socks_close := encodeRaw_hdrOpcode _ _ _ _ (by decide)
      refine ⟨?_, ?_, ?_⟩
      · exact extract_encodeRaw_clean g2 g op_socks_close _ (by decide) hg hgs
          (by rw [hplen]; decide) (by rw [hplen]; decide)
      · rw [decodePayload, if_neg (by rw [hop]; decide),
          if_neg (by rw [hop]; decide), if_neg (by rw [hop]; decide),
          if_neg (by rw [hop]; decide), if_neg (by rw [hop]; decide),
          if_pos hop, hid]
      · exact encodeRaw_crc_matches g2 g op_socks_close _ (by rw [hplen]; decide)
  | socksDisconnected sid =>
      obtain ⟨hsid, hsid0⟩ := hadm
      simp only [encode_packet, make_socks_disconnected, requestUid]
      have hplen : (leEnc 8 sid).length = 8 := length_leEnc 8 sid
      have hid : pldSocksId (encodeRaw g2 g op_socks_disconnected
          (leEnc 8 sid)) = sid := by
        rw [pldSocksId, encodeRaw_drop17, take_all_len8 _ (length_leEnc 8 _),
          leDec_leEnc8, Nat.mod_eq_of_lt (by exact_mod_cast hsid)]
      have hop : hdrOpcode (encodeRaw g2 g op_socks_disconnected
          (leEnc 8 sid)) = op_socks_disconnected :=
        encodeRaw_hdrOpcode _ _ _ _ (by decide)
      refine ⟨?_, ?_, ?_⟩
      · exact extract_encodeRaw_clean g2 g op_socks_disconnected _ (by decide)
          hg hgs (by rw [hplen]; decide) (by rw [hplen]; decide)
      · rw [decodePayload, if_neg (by rw [hop]; decide),
          if_neg (by rw [hop]; decide), if_neg (by rw [hop]; decide),
          if_neg (by rw [hop]; decide), if_neg (by rw [hop]; decide),
          if_neg (by rw [hop]; decide), if_pos hop, hid]
      · exact encodeRaw_crc_matches g2 g op_socks_disconnected _
          (by rw [hplen]; decide)
  | uninstallSelf =>
      simp only [encode_packet, make_uninstall_self, requestUid]
      have hop : hdrOpcode (encodeRaw g2 g op_uninstall_self []) =
          op_uninstall_self := encodeRaw_hdrOpcode _ _ _ _ (by decide)
      refine ⟨?_, ?_, ?_⟩
      · exact extract_encodeRaw_clean g2 g op_uninstall_self _ (by decide)
          hg hgs (by decide) (by decide)
      · rw [decodePayload, if_neg (by rw [hop]; decide),
          if_neg (by rw [hop]; decide), if_neg (by rw [hop]; decide),
          if_neg (by rw [hop]; decide), if_neg (by rw [hop]; decide),
          if_neg (by rw [hop]; decide), if_neg (by rw [hop]; decide),
          if_pos hop]
      · exact encodeRaw_crc_matches g2 g op_uninstall_self _ (by decide)

/-! ### Claim theorems -/

/-- C10: `extract_next_packet` on an empty input buffer returns
`error_incomplete` — not `error_garbage` — leaves the buffer empty, clears
the output packet and sets the out-uid to 0. -/
theorem extract_next_packet_empty :
    extract_next_packet [] = ⟨.error_incomplete, [], [], 0⟩ := rfl

/-- C1 (the code evaluated at the failing input): for the well-formed
10-byte IPv4 CONNECT request `[05 01 00 01 7F 00 00 01 00 50]` in state
`needs-cmd`, the inverted `packet.size() >= required_min_len` comparison
sends the handler into its `assert(0)` error branch for every outcome of
the network oracles: it replies the zeroed general-failure SOCKS reply,
never reaches `connected`, and `handle_socks_request` closes and erases
the session — address resolution, connection and the success reply the
claim describes never happen. -/
theorem needcmd_ipv4_wellformed_fails (resolveOk inetNtopOk : Bool)
    (connectReply : Nat) (connValid sendOk : Bool) :
    handle_socks_request__needcmd resolveOk inetNtopOk connectReply
        [5, 1, 0, 1, 127, 0, 0, 1, 0, 80] =
      ⟨[send_reply_to_client socks_reply_general_failure],
        socks_state_needcmd, false⟩ ∧
    (handle_socks_request resolveOk inetNtopOk connectReply connValid sendOk
        socks_state_needcmd [5, 1, 0, 1, 127, 0, 0, 1, 0, 80]).2 = true := by
  constructor
  · rfl
  · rfl

/-- C3: the peer's direction flags are inverted for the server's
bookkeeping (`chansetup_read` attaches the channel as the server's write
channel and vice-versa); `chansetup_read | chansetup_write` on one channel
creates a duplex client holding the same channel in both slots; and a
`channel_setup` naming a live client whose requested slot is occupied
raises `*out_must_erase` (teardown of the offender) and changes nothing. -/
theorem channel_setup_direction_inversion :
    (∀ ch cid flags,
      (Nat.land (configure_channel ch cid flags).config_flags chanconfig_write ≠ 0 ↔
        Nat.land flags chansetup_read ≠ 0) ∧
      (Nat.land (configure_channel ch cid flags).config_flags chanconfig_read ≠ 0 ↔
        Nat.land flags chansetup_write ≠ 0)) ∧
    (∀ draws clients ch cid,
      generate_client_id draws clients = some cid →
      process_channel_setup draws clients ch 0 chansetup_duplex =
        some ((cid, ⟨cid, some ch.pipe_token, some ch.pipe_token, []⟩) :: clients,
          configure_channel ch cid chansetup_duplex, false, some cid)) ∧
    (∀ draws clients ch pid flags client,
      pid ≠ 0 → alookup clients pid = some client →
      ((Nat.land flags chansetup_read ≠ 0 ∧ client.chan_write.isSome) ∨
        (Nat.land flags chansetup_write ≠ 0 ∧ client.chan_read.isSome)) →
      process_channel_setup draws clients ch pid flags =
        some (clients, ch, true, none)) := by
  refine ⟨?_, ?_, ?_⟩
  · intro ch cid flags
    unfold configure_channel chanconfig_write chanconfig_read chansetup_read
      chansetup_write
    by_cases h1 : Nat.land flags 1 ≠ 0 <;> by_cases h2 : Nat.land flags 2 ≠ 0 <;>
      simp [h1, h2] <;> decide
  · intro draws clients ch cid hgen
    unfold process_channel_setup
    rw [if_pos rfl, hgen]
    have hcfg : (configure_channel ch cid chansetup_duplex).config_flags = 3 := by
      simp only [configure_channel]
      decide
    have htok : (configure_channel ch cid chansetup_duplex).pipe_token =
        ch.pipe_token := rfl
    simp only [hcfg, htok]
    norm_num
    exact ⟨fun h => absurd h (by decide), fun h => absurd h (by decide)⟩
  · intro draws clients ch pid flags client hpid hcl hcol
    unfold process_channel_setup
    rw [if_neg hpid, hcl]
    simp only [if_pos hcol]

theorem generate_client_id_sound (draws : List Nat)
    (clients : List (Nat × ClientT)) (cid : Nat)
    (h : generate_client_id draws clients = some cid) :
    cid ≠ 0 ∧ alookup clients cid = none ∧ cid ∈ draws := by
  have hp := List.find?_some h
  have hm := List.mem_of_find?_eq_some h
  simp only [Bool.and_eq_true, Bool.not_eq_true', beq_eq_false_iff_ne,
    Option.isNone_iff_eq_none] at hp
  exact ⟨hp.1, hp.2, hm⟩

/-- C4: a `channel_setup` with peer-supplied client-id 0 allocates — by
rejection sampling against the live table — an id that is non-zero and not
live at that moment, creates the client under that id, raises no teardown,
and acks with a `channel_setup_ack` whose payload field carries exactly
that id. -/
theorem channel_setup_fresh_client_id (draws : List Nat)
    (clients : List (Nat × ClientT)) (ch : ChannelT) (flags : Nat)
    (clients' : List (Nat × ClientT)) (ch' : ChannelT) (er : Bool)
    (ack : Option Nat)
    (hdraws : ∀ d ∈ draws, d < 2 ^ 64)
    (h : process_channel_setup draws clients ch 0 flags =
      some (clients', ch', er, ack)) :
    ∃ cid, ack = some cid ∧ cid ≠ 0 ∧ alookup clients cid = none ∧
      er = false ∧
      alookup clients' cid = some
        ⟨cid,
          (if Nat.land (configure_channel ch cid flags).config_flags
              chanconfig_read ≠ 0 then some ch.pipe_token else none),
          (if Nat.land (configure_channel ch cid flags).config_flags
              chanconfig_write ≠ 0 then some ch.pipe_token else none),
          []⟩ ∧
      (∀ g2 uid, pldClientId (make_channel_setup_ack g2 uid cid) = cid) := by
  rw [process_channel_setup, if_pos rfl] at h
  cases hgen : generate_client_id draws clients with
  | none => rw [hgen] at h; exact absurd h (by simp)
  | some cid =>
      rw [hgen] at h
      obtain ⟨h0, hlive, hmem⟩ := generate_client_id_sound draws clients cid hgen
      simp only [Option.some.injEq, Prod.mk.injEq] at h
      obtain ⟨hc', hch', her, hack⟩ := h
      refine ⟨cid, hack.symm, h0, hlive, her.symm, ?_, ?_⟩
      · rw [← hc']
        have htok : (configure_channel ch cid flags).pipe_token =
            ch.pipe_token := rfl
        simp [alookup, List.find?, htok]
      · intro g2 uid
        have hcid : cid < 2 ^ 64 := hdraws cid hmem
        rw [make_channel_setup_ack, pldClientId, encodeRaw_drop17,
          take_all_len8 _ (length_leEnc 8 _), leDec_leEnc8,
          Nat.mod_eq_of_lt (by exact_mod_cast hcid)]

theorem alookup_filter_none {α : Type} (l : List (Nat × α))
    (p : Nat × α → Bool) (k : Nat) (h : ∀ v, p (k, v) = false) :
    alookup (l.filter p) k = none := by
  suffices hf : (l.filter p).find? (fun kv => kv.1 == k) = none by
    simp [alookup, hf]
  rw [List.find?_eq_none]
  intro x hx hbeq
  rcases List.mem_filter.mp hx with ⟨_, hpx⟩
  have hk : x.1 = k := by simpa using hbeq
  have hfalse : p (k, x.2) = false := h x.2
  rw [← hk] at hfalse
  rw [hpx] at hfalse
  exact Bool.true_eq_false ▸ hfalse

/-- C5: a fully buffered frame at the front of the buffer whose declared
length is within bounds but whose CRC field mismatches the CRC computed
over the packet (CRC field zeroed) makes `extract_next_packet` return
`error_crc` with exactly the declared number of bytes removed from the
magic onward; the worker's channel processing then flags the channel for
teardown, and `erase_channel_and_client` removes both the channel and its
client from the worker tables. -/
theorem crc_mismatch_teardown (r : List Nat)
    (hlen17 : 17 ≤ hdrLen (magicBytes ++ r))
    (hmax : hdrLen (magicBytes ++ r) ≤ max_packet_size)
    (hbuf : hdrLen (magicBytes ++ r) ≤ (magicBytes ++ r).length)
    (hcrc : proto_crc32 (magicBytes ++ r) ≠ hdrCrc (magicBytes ++ r)) :
    extract_next_packet (magicBytes ++ r) =
      ⟨.error_crc, (magicBytes ++ r).drop (hdrLen (magicBytes ++ r)), [],
        hdrUid (magicBytes ++ r)⟩ ∧
    process_channel_received_data (magicBytes ++ r) =
      (.erase, (magicBytes ++ r).drop (hdrLen (magicBytes ++ r))) ∧
    (∀ st tok ch cl, alookup st.channels tok = some ch → ch.client_id ≠ 0 →
      alookup st.clients ch.client_id = some cl →
      (cl.chan_read = some tok ∨ cl.chan_write = some tok) → tok ≠ 0 →
      alookup (erase_channel_and_client st tok).channels tok = none ∧
      alookup (erase_channel_and_client st tok).clients ch.client_id = none) := by
  have hne : magicBytes ++ r ≠ [] := by
    intro h
    have := congrArg List.length h
    simp [magicBytes] at this
  have hfind : findMagic (magicBytes ++ r) = some 0 := findMagic_at_front r
  have hlen : ¬ ((magicBytes ++ r).length < headerSize) := by
    have : headerSize = 17 := rfl
    omega
  have hex : extract_packet (magicBytes ++ r) =
      (.error_crc, [], hdrUid (magicBytes ++ r)) := by
    rw [extract_packet]
    rw [if_neg (by omega), if_neg (by omega), if_pos hcrc]
  have hcodec : extract_next_packet (magicBytes ++ r) =
      ⟨.error_crc, (magicBytes ++ r).drop (hdrLen (magicBytes ++ r)), [],
        hdrUid (magicBytes ++ r)⟩ := by
    rw [extract_next_packet, if_neg hne, hfind]
    simp only [List.drop_zero, hex]
    rw [if_neg hlen]
  refine ⟨hcodec, ?_, ?_⟩
  · rw [process_channel_received_data, hcodec]
  · intro st tok ch cl hch hcid hcl hslot htok
    have heq1 : erase_channel_and_client st tok = erase_client st ch.client_id := by
      rw [erase_channel_and_client, hch]
      exact if_neg hcid
    have heq2 : erase_client st ch.client_id =
        { channels := st.channels.filter (fun kv =>
            !((cl.chan_read.getD 0 != 0) && (kv.1 == cl.chan_read.getD 0)) &&
              !((cl.chan_write.getD 0 != 0) && (kv.1 == cl.chan_write.getD 0)))
          clients := st.clients.filter (fun kv => !(kv.1 == ch.client_id))
          socks_token_to_client := st.socks_token_to_client.filter (fun kv =>
            !(cl.socks_id_to_token.map (·.2)).contains kv.1) } := by
      rw [erase_client, if_neg hcid, hcl]
    rw [heq1, heq2]
    constructor
    · apply alookup_filter_none
      intro v
      rcases hslot with hslot | hslot <;> simp [hslot, htok]
    · apply alookup_filter_none
      intro v
      simp

/-- C6: a frame whose declared length is exactly the 16 MiB cap and is
otherwise valid and fully buffered is accepted (shown via the only opcode
admitting that length, `socks`); a declared length of 16 MiB + 1 makes
`extract_next_packet` return `error_toobig` and remove exactly the 4
magic bytes, leaving everything after them for the next scan. -/
theorem max_packet_size_boundary :
    (∀ g g2 sid d, g < 4294967296 → g ≠ 4294967295 → sid < 2 ^ 64 →
      sid ≠ 0 → d ≠ [] → 17 + 8 + d.length = max_packet_size →
      extract_next_packet (make_socks g g2 sid d) =
        ⟨.ok, [], make_socks g g2 sid d, g⟩) ∧
    (∀ r, 13 ≤ r.length →
      max_packet_size < hdrLen (magicBytes ++ r) →
      extract_next_packet (magicBytes ++ r) =
        ⟨.error_toobig, r, [], hdrUid (magicBytes ++ r)⟩) := by
  constructor
  · intro g g2 sid d hg hgs hsid hsid0 hdne hdlen
    have hd1 : 1 ≤ d.length := List.length_pos.mpr hdne
    have hdlen' : 25 + d.length = 16777216 := hdlen
    have hplen : (leEnc 8 sid ++ d).length = 8 + d.length := by
      simp [length_leEnc]
    refine extract_encodeRaw_clean g2 g op_socks _ (by decide) hg hgs ?_ ?_
    · rw [hplen]
      show 17 + (8 + d.length) ≤ 16777216
      omega
    · rw [hplen]
      simp only [packetSizeOk, op_socks, op_channel_setup,
        op_channel_setup_ack, op_status, op_ping, op_uninstall_self]
      norm_num
      omega
  · intro r hr hbig
    have hne : magicBytes ++ r ≠ [] := by
      intro h
      have := congrArg List.length h
      simp [magicBytes] at this
    have hlen : ¬ ((magicBytes ++ r).length < headerSize) := by
      have h1 : (magicBytes ++ r).length = 4 + r.length := by
        simp [magicBytes]
        omega
      have h2 : headerSize = 17 := rfl
      omega
    have hmaxeq : max_packet_size = 16777216 := rfl
    have hex : extract_packet (magicBytes ++ r) =
        (.error_toobig, [], hdrUid (magicBytes ++ r)) := by
      rw [extract_packet]
      rw [if_pos (by omega)]
    rw [extract_next_packet, if_neg hne, findMagic_at_front r]
    simp only [List.drop_zero, hex]
    rw [if_neg hlen, drop4_len4 magicBytes r rfl]

/-- C7 counterexample: a request whose unique id is `0xFFFFFFFF` — the
topmost value of the claimed range `[1, 2^32-1]` — does not get its id
echoed: `make_packet` treats `0xFFFFFFFF` as the "draw a fresh id"
sentinel, so the `status` response to such a ping carries the fresh
`generate_uid` draw (here `generate_uid_from 0 0x100 = 0x100`) instead. -/
theorem response_uid_echo_counterexample :
    hdrUid (make_status (generate_uid_from 0 0x100) 4294967295 0) ≠
      4294967295 := by decide

/-- C7 (amended): for every request uid in `[1, 2^32-2]`, the responses
the server builds for that request — `channel_setup_ack` answering
`channel_setup`, `status` answering `ping` (and `socks_close` /
`socks_disconnected`), always called with the request's `header.uid` —
carry a header uid exactly equal to it. -/
theorem response_uid_echo (u : Nat) (hu1 : 1 ≤ u) (hu2 : u ≤ 4294967294) :
    (∀ g2 cid, hdrUid (make_channel_setup_ack g2 u cid) = u) ∧
    (∀ g2 s, hdrUid (make_status g2 u s) = u) ∧
    (∀ g2, (process_channel_received_ping_packet g2 u true).1 =
      some (make_status g2 u status_ok)) := by
  have hus : u ≠ 4294967295 := by omega
  have hu : u < 4294967296 := by omega
  refine ⟨fun g2 cid => ?_, fun g2 s => ?_, fun g2 => rfl⟩
  · rw [make_channel_setup_ack, encodeRaw_hdrUid, if_pos hus,
      Nat.mod_eq_of_lt hu]
  · rw [make_status, encodeRaw_hdrUid, if_pos hus, Nat.mod_eq_of_lt hu]

/-- C8 counterexample: at the concrete first request `[04 01 00]` (a
SOCKS4 greeting) the `newclient` handler replies the 2-byte
no-acceptable-method answer `[05 FF]`, not the 10-byte
`[05 01 00 01 00 00 00 00 00 00]` SOCKS reply the claim states. -/
theorem socks4_greeting_reply_counterexample :
    (handle_socks_request__newclient [4, 1, 0]).responses = [[5, 0xff]] ∧
    (handle_socks_request__newclient [4, 1, 0]).responses ≠
      [[5, 1, 0, 1, 0, 0, 0, 0, 0, 0]] := by decide

/-- C8 (amended): for every new session whose first pushed request does
not carry the SOCKS5 version byte (such as a SOCKS4 greeting, first byte
4), the originator replies `[05 FF]` (no acceptable auth method), the
handler fails so `handle_socks_request` closes and erases the session
(raising `on_socks_close_client`), and the worker ships that closure as a
`socks_close` frame whose payload carries the peer's SOCKS id. -/
theorem socks4_greeting_closes_session (packet : List Nat)
    (hv : packet.getD 0 0 ≠ 5) :
    handle_socks_request__newclient packet =
      ⟨[[5, socks_auth_no_supported_method]], socks_state_newclient, false⟩ ∧
    (∀ resolveOk inetNtopOk connectReply connValid sendOk,
      (handle_socks_request resolveOk inetNtopOk connectReply connValid
        sendOk socks_state_newclient packet).2 = true) ∧
    (∀ st g g2 tok cid cl sid,
      alookup st.socks_token_to_client tok = some cid →
      alookup st.clients cid = some cl →
      find_socks_id_by_token cl tok = sid → sid ≠ 0 →
      cl.chan_write.isSome = true → sid < 2 ^ 64 →
      on_socks_close_client st g g2 tok = some (make_socks_close g g2 sid) ∧
      pldSocksId (make_socks_close g g2 sid) = sid) := by
  have hstep : handle_socks_request__newclient packet =
      ⟨[[5, socks_auth_no_supported_method]], socks_state_newclient, false⟩ := by
    rw [handle_socks_request__newclient,
      if_neg (by intro hand; exact hv hand.2)]
  refine ⟨hstep, ?_, ?_⟩
  · intro resolveOk inetNtopOk connectReply connValid sendOk
    rw [handle_socks_request, if_pos rfl, hstep]
    rfl
  · intro st g g2 tok cid cl sid hmap hcl hsid hsid0 hw hsid64
    constructor
    · have h1 : on_socks_close_client st g g2 tok =
          (if sid = 0 then none
            else if cl.chan_write.isSome then some (make_socks_close g g2 sid)
            else none) := by
        rw [on_socks_close_client, hmap]
        simp only []
        rw [hcl]
        simp only [hsid]
      rw [h1, if_neg hsid0, if_pos hw]
    · rw [make_socks_close, pldSocksId, encodeRaw_drop17,
        take_all_len8 _ (length_leEnc 8 _), leDec_leEnc8,
        Nat.mod_eq_of_lt (by exact_mod_cast hsid64)]

theorem pipe_no_issue_at_cap (s s' : PipeInstState)
    (h10 : s.olwrites = max_pending_kernel_writes)
    (hstep : PipeInstStep s s') : s'.issued = s.issued := by
  cases hstep with
  | write buf => rfl
  | proceed_issue buf rest hout hcap =>
      rcases hcap with hcap | hcap
      · exact absurd hcap (by decide)
      · rw [h10] at hcap
        exact absurd hcap (by decide)
  | on_written k hk => rfl

/-- C9: on every reachable state of a pipe instance the number of
in-flight kernel writes never exceeds `max_pending_kernel_writes` (= 10);
the issued buffers followed by the queued FIFO always equal the submission
order, so buffers are issued strictly in FIFO order; and from a state with
10 writes in flight no step issues a buffer — a submission there only
appends to the per-instance FIFO, until a completion frees a slot. -/
theorem pipe_write_backpressure (s : PipeInstState)
    (h : PipeInstReachable s) :
    s.olwrites ≤ max_pending_kernel_writes ∧
    s.issued ++ s.output = s.submitted ∧
    (∀ s', s.olwrites = max_pending_kernel_writes → PipeInstStep s s' →
      s'.issued = s.issued) := by
  induction h with
  | refl =>
      exact ⟨by decide, rfl,
        fun s' h10 hstep => pipe_no_issue_at_cap _ s' h10 hstep⟩
  | @tail b c hreach hstep ih =>
      obtain ⟨ih1, ih2, _⟩ := ih
      refine ⟨?_, ?_, fun s' h10 hstep' => pipe_no_issue_at_cap _ s' h10 hstep'⟩
      · cases hstep with
        | write buf => exact ih1
        | proceed_issue buf rest hout hcap =>
            rcases hcap with hcap | hcap
            · exact absurd hcap (by decide)
            · show b.olwrites + 1 ≤ _
              have hm : max_pending_kernel_writes = 10 := rfl
              omega
        | on_written k hk =>
            show k ≤ _
            omega
      · cases hstep with
        | write buf =>
            show b.issued ++ (b.output ++ [buf]) = b.submitted ++ [buf]
            rw [← List.append_assoc, ih2]
        | proceed_issue buf rest hout hcap =>
            show (b.issued ++ [buf]) ++ rest = b.submitted
            rw [List.append_assoc, ← ih2, hout]
            rfl
        | on_written k hk => exact ih2

theorem extract_encode_roundtrip_witness :
    extract_next_packet (encode_packet 1 0 2 (.channelSetup 5 3)) =
      ⟨.ok, [], encode_packet 1 0 2 (.channelSetup 5 3),
        requestUid 1 2 (.channelSetup 5 3)⟩ ∧
    decodePayload (encode_packet 1 0 2 (.channelSetup 5 3)) =
      some (.channelSetup 5 3) ∧
    hdrCrc (encode_packet 1 0 2 (.channelSetup 5 3)) =
      proto_crc32 (setBytes (encode_packet 1 0 2 (.channelSetup 5 3)) 8
        [0, 0, 0, 0]) :=
  extract_encode_roundtrip 1 0 2 (.channelSetup 5 3) (by decide) (by decide)
    (by decide) (by decide) ⟨by norm_num, by norm_num⟩

theorem channel_setup_direction_inversion_witness :
    ((Nat.land (configure_channel ⟨0, 0, 5, [], false⟩ 9 1).config_flags
        chanconfig_write ≠ 0 ↔ Nat.land 1 chansetup_read ≠ 0) ∧
      (Nat.land (configure_channel ⟨0, 0, 5, [], false⟩ 9 1).config_flags
        chanconfig_read ≠ 0 ↔ Nat.land 1 chansetup_write ≠ 0)) ∧
    process_channel_setup [7] [] ⟨0, 0, 5, [], false⟩ 0 chansetup_duplex =
      some ([(7, ⟨7, some 5, some 5, []⟩)],
        configure_channel ⟨0, 0, 5, [], false⟩ 7 chansetup_duplex, false,
        some 7) ∧
    process_channel_setup [7] [(9, ⟨9, none, some 4, []⟩)]
        ⟨0, 0, 5, [], false⟩ 9 1 =
      some ([(9, ⟨9, none, some 4, []⟩)], ⟨0, 0, 5, [], false⟩, true, none) :=
  ⟨channel_setup_direction_inversion.1 ⟨0, 0, 5, [], false⟩ 9 1,
    channel_setup_direction_inversion.2.1 [7] [] ⟨0, 0, 5, [], false⟩ 7
      (by decide),
    channel_setup_direction_inversion.2.2 [7] [(9, ⟨9, none, some 4, []⟩)]
      ⟨0, 0, 5, [], false⟩ 9 1 ⟨9, none, some 4, []⟩ (by decide) (by decide)
      (Or.inl ⟨by decide, by decide⟩)⟩

theorem channel_setup_fresh_client_id_witness :
    ∃ cid, (some 5 : Option Nat) = some cid ∧ cid ≠ 0 ∧
      alookup ([] : List (Nat × ClientT)) cid = none ∧ false = false ∧
      alookup [(5, (⟨5, some 7, some 7, []⟩ : ClientT))] cid = some
        ⟨cid,
          (if Nat.land (configure_channel ⟨0, 0, 7, [], false⟩ cid 3).config_flags
              chanconfig_read ≠ 0 then some 7 else none),
          (if Nat.land (configure_channel ⟨0, 0, 7, [], false⟩ cid 3).config_flags
              chanconfig_write ≠ 0 then some 7 else none),
          []⟩ ∧
      (∀ g2 uid, pldClientId (make_channel_setup_ack g2 uid cid) = cid) :=
  channel_setup_fresh_client_id [5] [] ⟨0, 0, 7, [], false⟩ 3
    [(5, ⟨5, some 7, some 7, []⟩)] ⟨5, 3, 7, [], false⟩ false (some 5)
    (by decide) (by decide)

set_option maxRecDepth 4000 in
theorem crc_mismatch_teardown_witness :
    extract_next_packet
        (magicBytes ++ [17, 0, 0, 0, 118, 158, 153, 32, 1, 0, 0, 0, 10]) =
      ⟨.error_crc, [], [], 1⟩ ∧
    alookup (erase_channel_and_client ⟨[(4, ⟨9, 3, 4, [], true⟩)],
        [(9, ⟨9, some 4, some 4, []⟩)], []⟩ 4).channels 4 = none ∧
    alookup (erase_channel_and_client ⟨[(4, ⟨9, 3, 4, [], true⟩)],
        [(9, ⟨9, some 4, some 4, []⟩)], []⟩ 4).clients 9 = none := by
  obtain ⟨h1, h2, h3⟩ := crc_mismatch_teardown
    [17, 0, 0, 0, 118, 158, 153, 32, 1, 0, 0, 0, 10]
    (by decide) (by decide) (by decide) (by decide)
  exact ⟨h1, h3 ⟨[(4, ⟨9, 3, 4, [], true⟩)], [(9, ⟨9, some 4, some 4, []⟩)], []⟩
    4 ⟨9, 3, 4, [], true⟩ ⟨9, some 4, some 4, []⟩ (by decide) (by decide)
    (by decide) (Or.inl (by decide)) (by decide)⟩

theorem max_packet_size_boundary_witness :
    extract_next_packet (make_socks 1 0 1 (List.replicate 16777191 0)) =
      ⟨.ok, [], make_socks 1 0 1 (List.replicate 16777191 0), 1⟩ ∧
    extract_next_packet
        (magicBytes ++ (leEnc 4 16777217 ++ List.replicate 9 0)) =
      ⟨.error_toobig, leEnc 4 16777217 ++ List.replicate 9 0, [],
        hdrUid (magicBytes ++ (leEnc 4 16777217 ++ List.replicate 9 0))⟩ :=
  ⟨max_packet_size_boundary.1 1 0 1 (List.replicate 16777191 0) (by decide)
      (by decide) (by decide) (by decide)
      (List.length_pos.mp (by rw [List.length_replicate]; decide))
      (by rw [List.length_replicate]; decide),
    max_packet_size_boundary.2 (leEnc 4 16777217 ++ List.replicate 9 0)
      (by decide) (by decide)⟩

theorem response_uid_echo_witness :
    (∀ g2 cid, hdrUid (make_channel_setup_ack g2 7 cid) = 7) ∧
    (∀ g2 s, hdrUid (make_status g2 7 s) = 7) ∧
    (∀ g2, (process_channel_received_ping_packet g2 7 true).1 =
      some (make_status g2 7 status_ok)) :=
  response_uid_echo 7 (by decide) (by decide)

theorem socks4_greeting_closes_session_witness :
    handle_socks_request__newclient [4, 1, 0] =
      ⟨[[5, socks_auth_no_supported_method]], socks_state_newclient, false⟩ ∧
    (∀ resolveOk inetNtopOk connectReply connValid sendOk,
      (handle_socks_request resolveOk inetNtopOk connectReply connValid
        sendOk socks_state_newclient [4, 1, 0]).2 = true) ∧
    (∀ st g g2 tok cid cl sid,
      alookup st.socks_token_to_client tok = some cid →
      alookup st.clients cid = some cl →
      find_socks_id_by_token cl tok = sid → sid ≠ 0 →
      cl.chan_write.isSome = true → sid < 2 ^ 64 →
      on_socks_close_client st g g2 tok = some (make_socks_close g g2 sid) ∧
      pldSocksId (make_socks_close g g2 sid) = sid) :=
  socks4_greeting_closes_session [4, 1, 0] (by decide)

theorem pipe_write_backpressure_witness :
    (⟨0, [[1]], [], [[1]]⟩ : PipeInstState).olwrites ≤
      max_pending_kernel_writes ∧
    (⟨0, [[1]], [], [[1]]⟩ : PipeInstState).issued ++
      (⟨0, [[1]], [], [[1]]⟩ : PipeInstState).output =
      (⟨0, [[1]], [], [[1]]⟩ : PipeInstState).submitted ∧
    (∀ s', (⟨0, [[1]], [], [[1]]⟩ : PipeInstState).olwrites =
        max_pending_kernel_writes →
      PipeInstStep ⟨0, [[1]], [], [[1]]⟩ s' →
      s'.issued = (⟨0, [[1]], [], [[1]]⟩ : PipeInstState).issued) :=
  pipe_write_backpressure ⟨0, [[1]], [], [[1]]⟩
    (Relation.ReflTransGen.single (PipeInstStep.write ⟨0, [], [], []⟩ [1]))
